import Mathlib

/-!
Shallow embedding of the vote ledger / leaderboard core of the
Digital-Voting-System repository.

Sources embedded:
  * `backend/controllers/voteController.js` — `castVote` and its inline
    leaderboard aggregate;
  * `backend/controllers/resultsController.js` — `isElectionCompleted`,
    `buildLeaderboard`, `getResults`, `publishResults`;
  * `backend/models/Election.js` — `electionSchema` with its embedded
    `candidateSchema`.

MongoDB ObjectIds are modelled as naturals, `Date` values as integers
(milliseconds); "the current time" (`new Date()`) is an explicit `now`
argument.  JavaScript's real-number division in the `percent` computation is
modelled over `Rat`.  Fields that the controllers assign but the schema does
not declare (`status`, `publishedAt`) are `Option`-valued, matching documents
as the JavaScript code actually produces them (absent until assigned).
-/

namespace Voting

/-- ObjectIds, modelled as naturals. -/
abbrev Id := Nat

/-- `candidateSchema` embedded in `electionSchema` (`models/Election.js`):
name, party, and a `votes` counter defaulting to 0. -/
structure EmbCandidate where
  name : String
  party : String
  votes : Nat
deriving DecidableEq, Repr

/-- `electionSchema` (`models/Election.js`): title, description, startDate,
endDate, embedded candidates, isActive.  `status` and `publishedAt` are not in
the schema but are assigned by `publishResults`, so they are carried as
optional fields (absent on a fresh document). `endDate` is optional because
`publishResults` guards on its absence (`if (!election.endDate) ...`). -/
structure Election where
  id : Id
  title : String
  description : Option String
  startDate : Int
  endDate : Option Int
  candidates : List EmbCandidate
  isActive : Bool
  status : Option String
  publishedAt : Option Int
deriving DecidableEq, Repr

/-- Modelled from the spec: `models/Candidate.js` is absent from `src/`
(only its importers are present).  Per the spec's data model a Candidate has
an identity, a display name, a party/affiliation and belongs to exactly one
Election; the aggregation pipelines in `resultsController.js` read exactly the
fields `_id`, `name`, `party`, `election` of the `candidates` collection. -/
structure Candidate where
  id : Id
  name : String
  party : String
  election : Id
deriving DecidableEq, Repr

/-- Modelled from the spec: `models/Vote.js` is absent from `src/` (only its
importers are present).  Per the spec a Vote records `voterId`, `electionId`,
`candidateId`; `castVote` creates votes with exactly the fields `voter`,
`candidate`, `election`. -/
structure Vote where
  id : Id
  voter : Id
  election : Id
  candidate : Id
deriving DecidableEq, Repr

/-- The MongoDB database: the `elections`, `candidates` and `votes`
collections. -/
structure DB where
  elections : List Election
  candidates : List Candidate
  votes : List Vote
deriving DecidableEq, Repr

/-- An HTTP response: status code and the `message` field of the JSON body
(empty when the handler sends no message). -/
structure Resp where
  status : Nat
  message : String
deriving DecidableEq, Repr

/-- One row of the inline aggregate in `castVote`
(`{ candidate: name, votes }`). -/
structure AggRow where
  candidate : String
  votes : Nat
deriving DecidableEq, Repr

/-- One leaderboard entry produced by `buildLeaderboard`
(`{ candidateId, name, party, totalVotes, percent }`). -/
structure LBEntry where
  candidateId : Id
  name : String
  party : String
  totalVotes : Nat
  percent : Rat
deriving DecidableEq, Repr

/-- A socket.io emission: `io.to(room).emit(event, payload)`. -/
inductive Payload where
  /-- payload of `castVote`'s `leaderboardUpdate` -/
  | agg (rows : List AggRow)
  /-- payload of `publishResults`'s events:
  `{ electionId, totalVotes, leaderboard }`, with `status` present only on the
  `leaderboard:update` event -/
  | board (electionId : Id) (totalVotes : Nat) (leaderboard : List LBEntry)
      (status : Option String)
deriving DecidableEq, Repr

/-- A broadcast to a room. -/
structure Emit where
  room : Id
  event : String
  payload : Payload
deriving DecidableEq, Repr

/-- `Election.findById(electionId)`. -/
def findElection (db : DB) (eid : Id) : Option Election :=
  db.elections.find? (fun e => e.id == eid)

/-- `Vote.findOne({ voter: voterId, election: electionId })` viewed as a
boolean existence check. -/
def hasVote (db : DB) (voter eid : Id) : Bool :=
  db.votes.any (fun w => w.voter == voter && w.election == eid)

/-- Modelled from the spec: `models/Vote.js` is absent from `src/`, and the
spec states that uniqueness of `(voterId, electionId)` is "enforced at the
storage layer (not merely by an application-level check)" with "the insert
itself being the arbiter of success".  `insertVote` is that atomic
storage-level insert: it commits the document unless a vote with the same
`(voter, election)` pair already exists, in which case it fails with a
duplicate-key error. -/
def insertVote (db : DB) (v : Vote) : Except String DB :=
  if hasVote db v.voter v.election then
    Except.error "E11000 duplicate key error"
  else
    Except.ok { db with votes := db.votes ++ [v] }

/-- First-appearance-order distinct keys, as `$group` produces one output
document per distinct key. -/
def groupKeys (l : List Id) : List Id :=
  l.foldl (fun acc k => if k ∈ acc then acc else acc ++ [k]) []

/-- The inline aggregate of `castVote` (`voteController.js` lines 30–42):
match this election's votes, group by candidate counting, sort by count
descending, look the group key up in the `candidates` collection, `$unwind`
(dropping groups whose candidate document is missing), and project the
candidate's name with the count. -/
def castVoteAgg (db : DB) (eid : Id) : List AggRow :=
  let vs := db.votes.filter (fun v => v.election == eid)
  let groups := (groupKeys (vs.map (fun v => v.candidate))).map
    (fun k => (k, (vs.filter (fun v => v.candidate == k)).length))
  let sorted := List.insertionSort (fun a b => b.2 ≤ a.2) groups
  sorted.filterMap (fun g =>
    (db.candidates.find? (fun c => c.id == g.1)).map
      (fun c => { candidate := c.name, votes := g.2 }))

/-- `castVote` (`voteController.js` lines 8–51).  Checks that the election
exists (else 404), that the voter has not voted in it (else 400
"You already voted"), inserts the vote, recomputes the inline aggregate and
broadcasts it to the election's room as a `leaderboardUpdate` event.  A
storage error thrown by the insert is caught and mapped to a 500 response
with the error's message.  Returns the response, the updated database and
the list of emissions. -/
def castVote (db : DB) (voterId eid cid vid : Id) : Resp × DB × List Emit :=
  match findElection db eid with
  | none => ({ status := 404, message := "Election not found" }, db, [])
  | some _ =>
    if hasVote db voterId eid then
      ({ status := 400, message := "You already voted" }, db, [])
    else
      match insertVote db { id := vid, voter := voterId, election := eid, candidate := cid } with
      | Except.error msg => ({ status := 500, message := msg }, db, [])
      | Except.ok db1 =>
        let lb := castVoteAgg db1 eid
        ({ status := 201, message := "Vote cast successfully" }, db1,
          [{ room := eid, event := "leaderboardUpdate", payload := Payload.agg lb }])

/-- `isElectionCompleted` (`resultsController.js` lines 11–24): a string
`status` decides alone; otherwise an `endDate` strictly in the past means
completed, and failing that `isActive == false` means completed.  (No code
path in the repository ever assigns an `isCompleted` field, so that branch is
vacuous on documents this system produces.) -/
def isElectionCompleted (now : Int) (e : Election) : Bool :=
  match e.status with
  | some s => s == "completed"
  | none =>
    match e.endDate with
    | some d => if d < now then true else !e.isActive
    | none => !e.isActive

/-- A row of `buildLeaderboard` before the percent annotation. -/
structure LBRow where
  candidateId : Id
  name : String
  party : String
  totalVotes : Nat
deriving DecidableEq, Repr

/-- Count of this election's votes for one candidate: the `$lookup` pipeline
of `buildLeaderboard` (`$eq` on candidate and on election, then `$count`). -/
def countVotesFor (db : DB) (eid cid : Id) : Nat :=
  (db.votes.filter (fun v => v.candidate == cid && v.election == eid)).length

/-- Descending order on vote totals, the `$sort: { totalVotes: -1 }` key. -/
def rowGE (a b : LBRow) : Prop := b.totalVotes ≤ a.totalVotes

instance : DecidableRel rowGE := fun a b => decidable_of_iff (b.totalVotes ≤ a.totalVotes) Iff.rfl

instance : IsTotal LBRow rowGE := ⟨fun a b => by unfold rowGE; exact le_total _ _⟩

instance : IsTrans LBRow rowGE := ⟨fun _ _ _ h1 h2 => le_trans h2 h1⟩

/-- One candidate's aggregate row in `buildLeaderboard`: the projection
`{ candidateId: $_id, name, party, totalVotes }` with the lookup count. -/
def mkRow (db : DB) (eid : Id) (c : Candidate) : LBRow :=
  { candidateId := c.id, name := c.name, party := c.party,
    totalVotes := countVotesFor db eid c.id }

/-- The candidate-rooted aggregate of `buildLeaderboard`
(`resultsController.js` lines 31–70): start from the election's candidates,
attach each candidate's vote count (0 when the lookup is empty) and sort
descending by `totalVotes`. -/
def buildRows (db : DB) (eid : Id) : List LBRow :=
  List.insertionSort rowGE
    ((db.candidates.filter (fun c => c.election == eid)).map (mkRow db eid))

/-- `rows.reduce((s, r) => s + (r.totalVotes || 0), 0)`. -/
def lbTotal (db : DB) (eid : Id) : Nat :=
  (buildRows db eid).foldl (fun s r => s + r.totalVotes) 0

/-- The percent annotation
`percent: totalVotes ? (r.totalVotes / totalVotes) * 100 : 0` (0 is the one
falsy total). -/
def addPercent (total : Nat) (r : LBRow) : LBEntry :=
  { candidateId := r.candidateId, name := r.name, party := r.party,
    totalVotes := r.totalVotes,
    percent := if total = 0 then 0 else ((r.totalVotes : Rat) / (total : Rat)) * 100 }

/-- `buildLeaderboard` (`resultsController.js` lines 27–79): the sorted rows,
their total, and the percent annotation on every row. -/
def buildLeaderboard (db : DB) (eid : Id) : Nat × List LBEntry :=
  (lbTotal db eid, (buildRows db eid).map (addPercent (lbTotal db eid)))

/-- The `data` object of a successful `getResults` response. -/
structure ResultsData where
  electionId : Id
  status : String
  publishedAt : Option Int
  totalVotes : Nat
  leaderboard : List LBEntry
deriving DecidableEq, Repr

/-- `getResults` (`resultsController.js` lines 222–248): 404 when the
election is missing, 400 "Election not completed yet" when
`isElectionCompleted` is false, otherwise 200 with the leaderboard
recomputed by `buildLeaderboard` at call time (`election.status ?? 'completed'`
for the reported status). -/
def getResults (db : DB) (eid : Id) (now : Int) : Resp × Option ResultsData :=
  match findElection db eid with
  | none => ({ status := 404, message := "Election not found" }, none)
  | some e =>
    if isElectionCompleted now e then
      let r := buildLeaderboard db eid
      ({ status := 200, message := "" },
        some { electionId := eid, status := e.status.getD "completed",
               publishedAt := e.publishedAt, totalVotes := r.1, leaderboard := r.2 })
    else
      ({ status := 400, message := "Election not completed yet" }, none)

/-- The field updates `publishResults` performs on the election document
(`resultsController.js` lines 260–263). -/
def publishUpdate (now : Int) (e : Election) : Election :=
  { e with status := some "completed", isActive := false,
           publishedAt := some now,
           endDate := some (e.endDate.getD now) }

/-- `election.save()` after the updates of `publishResults`: replace the
matching document in the `elections` collection. -/
def stampFor (eid : Id) (now : Int) (e : Election) : Election :=
  if e.id == eid then publishUpdate now e else e

/-- `publishResults` (`resultsController.js` lines 251–282): 404 when the
election is missing; otherwise stamp the election completed (status
`'completed'`, `isActive` false, `publishedAt` now, `endDate` set only when it
was unset), save it, rebuild the leaderboard, and broadcast both a
`leaderboard:update` and a `results:published` event to the election's
room. -/
def publishResults (db : DB) (eid : Id) (now : Int) : Resp × DB × List Emit :=
  match findElection db eid with
  | none => ({ status := 404, message := "Election not found" }, db, [])
  | some _ =>
    let db1 := { db with elections := db.elections.map (stampFor eid now) }
    let r := buildLeaderboard db1 eid
    ({ status := 200, message := "Results published" }, db1,
      [{ room := eid, event := "leaderboard:update",
         payload := Payload.board eid r.1 r.2 (some "completed") },
       { room := eid, event := "results:published",
         payload := Payload.board eid r.1 r.2 none }])

/-- An operation of the core, for reachability of states. -/
inductive Op where
  | cast (voterId eid cid vid : Id)
  | publish (eid : Id) (now : Int)
deriving DecidableEq, Repr

/-- Apply one operation, keeping only the resulting state. -/
def applyOp (db : DB) : Op → DB
  | Op.cast v e c i => (castVote db v e c i).2.1
  | Op.publish e now => (publishResults db e now).2.1

/-- Run a sequence of operations. -/
def runOps (db : DB) (ops : List Op) : DB :=
  ops.foldl applyOp db

/-- At most one vote per `(voterId, electionId)` pair. -/
def VotesUnique (db : DB) : Prop :=
  List.Pairwise (fun a b => ¬(a.voter = b.voter ∧ a.election = b.election)) db.votes

instance (db : DB) : Decidable (VotesUnique db) :=
  inferInstanceAs (Decidable (List.Pairwise _ _))

/-! ### Concrete sample data -/

/-- An election that is still open: `isActive`, future `endDate`, no `status`,
never published. -/
def sampleOpen : Election :=
  { id := 1, title := "Student Council", description := none, startDate := 0,
    endDate := some 100, candidates := [{ name := "A", party := "P", votes := 0 }],
    isActive := true, status := none, publishedAt := none }

/-- The same election after `publishResults` stamped it completed. -/
def sampleDone : Election :=
  { id := 1, title := "Student Council", description := none, startDate := 0,
    endDate := some 100, candidates := [{ name := "A", party := "P", votes := 0 }],
    isActive := false, status := some "completed", publishedAt := some 5 }

/-- Candidate A of election 1 in the `candidates` collection. -/
def candA : Candidate := { id := 10, name := "A", party := "P", election := 1 }

/-- Candidate B of election 1 in the `candidates` collection. -/
def candB : Candidate := { id := 11, name := "B", party := "Q", election := 1 }

/-- Open election, two candidates, empty ledger. -/
def dbOpen : DB := { elections := [sampleOpen], candidates := [candA, candB], votes := [] }

/-- Completed (published) election, two candidates, empty ledger. -/
def dbCompleted : DB := { elections := [sampleDone], candidates := [candA, candB], votes := [] }

/-- Open election where voter 100 has already voted for candidate A. -/
def dbVoted : DB :=
  { elections := [sampleOpen], candidates := [candA, candB],
    votes := [{ id := 50, voter := 100, election := 1, candidate := 10 }] }

/-! ### Helper lemmas -/

/-- The `findOne` existence check, pointwise. -/
lemma hasVote_eq_false_iff (db : DB) (v e : Id) :
    hasVote db v e = false ↔ ∀ w ∈ db.votes, ¬(w.voter = v ∧ w.election = e) := by
  simp [hasVote, List.any_eq_true]

/-- A fresh insert keeps the votes pairwise distinct on `(voter, election)`. -/
lemma votesUnique_append (db : DB) (vt : Vote) (h : VotesUnique db)
    (hfresh : hasVote db vt.voter vt.election = false) :
    List.Pairwise (fun a b => ¬(a.voter = b.voter ∧ a.election = b.election))
      (db.votes ++ [vt]) := by
  rw [List.pairwise_append]
  refine ⟨h, List.pairwise_singleton _ _, ?_⟩
  intro a ha b hb
  rw [List.mem_singleton.mp hb]
  exact (hasVote_eq_false_iff db vt.voter vt.election).mp hfresh a ha

/-- `castVote` either leaves the database untouched or appends exactly the new
vote to a ledger with no prior vote for the pair. -/
lemma castVote_state (db : DB) (v e c i : Id) :
    (castVote db v e c i).2.1 = db ∨
      (hasVote db v e = false ∧
        (castVote db v e c i).2.1 = { db with votes := db.votes ++ [⟨i, v, e, c⟩] }) := by
  unfold castVote
  cases hfind : findElection db e with
  | none => exact Or.inl rfl
  | some el =>
    by_cases hd : hasVote db v e
    · simp [hd]
    · simp only [Bool.not_eq_true] at hd
      right
      refine ⟨hd, ?_⟩
      simp [hd, insertVote]

/-- `publishResults` never touches the votes collection. -/
lemma publishResults_votes (db : DB) (e : Id) (now : Int) :
    (publishResults db e now).2.1.votes = db.votes := by
  unfold publishResults
  cases findElection db e <;> rfl

/-- One operation preserves uniqueness of `(voterId, electionId)`. -/
lemma applyOp_votesUnique (db : DB) (op : Op) (h : VotesUnique db) :
    VotesUnique (applyOp db op) := by
  cases op with
  | cast v e c i =>
    rcases castVote_state db v e c i with heq | ⟨hfresh, heq⟩
    · simpa [applyOp, heq] using h
    · have := votesUnique_append db ⟨i, v, e, c⟩ h hfresh
      simpa [applyOp, VotesUnique, heq] using this
  | publish e now =>
    have hv := publishResults_votes db e now
    simpa [applyOp, VotesUnique, hv] using h

/-! ### Claim theorems -/

/-- C1.  If a vote for `(voterId, electionId)` already exists in the ledger
(and the election resolves), `castVote` fails with the duplicate-vote error,
writes nothing and emits nothing; any `castVote` outcome other than the 201
success leaves the database unchanged; and uniqueness of
`(voterId, electionId)` is preserved by every sequence of operations, so every
state reachable from a unique-ledger state has at most one vote per pair. -/
theorem castVote_duplicate_rejected_and_votes_unique :
    (∀ (db : DB) (v e c i : Id),
        (findElection db e).isSome → hasVote db v e = true →
        castVote db v e c i
          = ({ status := 400, message := "You already voted" }, db, [])) ∧
    (∀ (db : DB) (v e c i : Id),
        (castVote db v e c i).1.status ≠ 201 → (castVote db v e c i).2.1 = db) ∧
    (∀ (db : DB) (ops : List Op), VotesUnique db → VotesUnique (runOps db ops)) := by
  refine ⟨?_, ?_, ?_⟩
  · intro db v e c i hfind hdup
    unfold castVote
    cases h : findElection db e with
    | none => rw [h] at hfind; simp at hfind
    | some el => simp [hdup]
  · intro db v e c i hne
    cases hfind : findElection db e with
    | none => simp [castVote, hfind]
    | some el =>
      by_cases hd : hasVote db v e
      · simp [castVote, hfind, hd]
      · simp only [Bool.not_eq_true] at hd
        exfalso
        apply hne
        simp [castVote, hfind, hd, insertVote]
  · intro db ops h
    induction ops generalizing db with
    | nil => exact h
    | cons op rest ih => exact ih (applyOp db op) (applyOp_votesUnique db op h)

/-- Witness for C1 at concrete inputs: voter 100 already voted in election 1,
so a second cast is rejected with the database unchanged, and a run of
operations from the empty ledger keeps votes unique. -/
theorem castVote_duplicate_rejected_witness :
    castVote dbVoted 100 1 11 51
        = ({ status := 400, message := "You already voted" }, dbVoted, []) ∧
      VotesUnique (runOps dbOpen [Op.cast 100 1 10 50, Op.cast 100 1 11 51]) :=
  ⟨castVote_duplicate_rejected_and_votes_unique.1 dbVoted 100 1 11 51
      (by decide) (by decide),
    castVote_duplicate_rejected_and_votes_unique.2.2 dbOpen
      [Op.cast 100 1 10 50, Op.cast 100 1 11 51] (by decide)⟩

/-- C3 (code bug).  The election of `dbCompleted` is completed (published):
`status` is `'completed'` and `isActive` is false.  Yet `castVote` for a fresh
voter succeeds with 201 and records the vote — `castVote` never consults the
election's lifecycle state, so no `ElectionNotActive` rejection exists. -/
theorem castVote_accepts_completed_election :
    sampleDone.status = some "completed" ∧ sampleDone.isActive = false ∧
    (castVote dbCompleted 100 1 10 50).1.status = 201 ∧
    (castVote dbCompleted 100 1 10 50).2.1.votes
      = [{ id := 50, voter := 100, election := 1, candidate := 10 }] := by
  decide

/-- C4 (code bug).  Candidate id 99 does not belong to election 1 (whose
candidates are 10 and 11), yet `castVote` succeeds with 201 and records a vote
for candidate 99 — `castVote` never validates the candidate, so no
`InvalidCandidate` rejection exists. -/
theorem castVote_accepts_invalid_candidate :
    ((dbOpen.candidates.filter (fun c => c.election == 1)).map (fun c => c.id))
        = [10, 11] ∧
    (castVote dbOpen 100 1 99 50).1.status = 201 ∧
    (castVote dbOpen 100 1 99 50).2.1.votes
      = [{ id := 50, voter := 100, election := 1, candidate := 99 }] := by
  decide

/-- `stampFor` never changes a document's id. -/
lemma stampFor_id (eid : Id) (now : Int) (e : Election) : (stampFor eid now e).id = e.id := by
  unfold stampFor publishUpdate
  split <;> rfl

/-- `find?` by id commutes with an id-preserving map of the collection. -/
lemma find_map_id_preserving (els : List Election) (f : Election → Election)
    (hf : ∀ x, (f x).id = x.id) (eid : Id) :
    (els.map f).find? (fun e => e.id == eid) = (els.find? (fun e => e.id == eid)).map f := by
  induction els with
  | nil => rfl
  | cons x xs ih =>
    simp only [List.map_cons, List.find?]
    rw [hf x]
    cases hx : (x.id == eid) <;> simp [ih]

/-- Looking any election up after `publishResults` sees the stamped
collection. -/
lemma findElection_publish (db : DB) (pe eid : Id) (now : Int)
    (hp : (findElection db pe).isSome) :
    findElection ((publishResults db pe now).2.1) eid
      = (findElection db eid).map (stampFor pe now) := by
  unfold publishResults
  cases h : findElection db pe with
  | none => rw [h] at hp; simp at hp
  | some el =>
    exact find_map_id_preserving db.elections _ (stampFor_id pe now) eid

/-- Documents other than the published one are untouched by the stamping. -/
lemma filter_ne_stamp (els : List Election) (pe : Id) (now : Int) :
    ((els.map (stampFor pe now)).filter (fun x => !(x.id == pe)))
      = els.filter (fun x => !(x.id == pe)) := by
  induction els with
  | nil => rfl
  | cons x xs ih =>
    simp only [List.map_cons, List.filter]
    rw [stampFor_id pe now x]
    cases hx : (x.id == pe) with
    | true => simpa using ih
    | false =>
      have hs : stampFor pe now x = x := by unfold stampFor; rw [hx]; rfl
      simpa [hs] using ih

/-- `castVote` never touches the elections collection. -/
lemma castVote_elections (db : DB) (v e c i : Id) :
    (castVote db v e c i).2.1.elections = db.elections := by
  rcases castVote_state db v e c i with heq | ⟨_, heq⟩ <;> rw [heq]

/-- `castVote` never touches the candidates collection. -/
lemma castVote_candidates (db : DB) (v e c i : Id) :
    (castVote db v e c i).2.1.candidates = db.candidates := by
  rcases castVote_state db v e c i with heq | ⟨_, heq⟩ <;> rw [heq]

/-- `publishResults` never touches the candidates collection. -/
lemma publishResults_candidates (db : DB) (e : Id) (now : Int) :
    (publishResults db e now).2.1.candidates = db.candidates := by
  unfold publishResults
  cases findElection db e <;> rfl

/-- C10.  A successful `publishResults` changes only the election's `status`
(to `'completed'`), `isActive` (to false), `publishedAt` (to now) and
`endDate` (kept when it was set, stamped with now only when it was unset);
the record update form shows title, description, startDate and the embedded
candidates list untouched.  All other elections, the votes collection and the
candidates collection are unchanged. -/
theorem publishResults_frame (db : DB) (eid : Id) (now : Int) (el : Election)
    (hfind : findElection db eid = some el) :
    (publishResults db eid now).1 = { status := 200, message := "Results published" } ∧
    findElection ((publishResults db eid now).2.1) eid = some
      { el with status := some "completed", isActive := false,
                publishedAt := some now, endDate := some (el.endDate.getD now) } ∧
    ((publishResults db eid now).2.1.elections.filter (fun x => !(x.id == eid)))
      = (db.elections.filter (fun x => !(x.id == eid))) ∧
    (publishResults db eid now).2.1.votes = db.votes ∧
    (publishResults db eid now).2.1.candidates = db.candidates := by
  have hp : (findElection db eid).isSome := by rw [hfind]; rfl
  have hid : (el.id == eid) = true := by
    have h2 : db.elections.find? (fun e => e.id == eid) = some el := hfind
    have h3 := List.find?_some h2
    exact h3
  refine ⟨?_, ?_, ?_, publishResults_votes db eid now, publishResults_candidates db eid now⟩
  · unfold publishResults
    rw [hfind]
  · rw [findElection_publish db eid eid now hp, hfind]
    simp [stampFor, publishUpdate, hid]
  · unfold publishResults
    rw [hfind]
    exact filter_ne_stamp db.elections eid now

/-- Witness for C10: publishing election 1 of `dbOpen` at time 5. -/
theorem publishResults_frame_witness :
    (publishResults dbOpen 1 5).1 = { status := 200, message := "Results published" } ∧
    findElection ((publishResults dbOpen 1 5).2.1) 1 = some
      { sampleOpen with status := some "completed", isActive := false,
                        publishedAt := some 5, endDate := some (sampleOpen.endDate.getD 5) } ∧
    ((publishResults dbOpen 1 5).2.1.elections.filter (fun x => !(x.id == 1)))
      = (dbOpen.elections.filter (fun x => !(x.id == 1))) ∧
    (publishResults dbOpen 1 5).2.1.votes = dbOpen.votes ∧
    (publishResults dbOpen 1 5).2.1.candidates = dbOpen.candidates :=
  publishResults_frame dbOpen 1 5 sampleOpen (by decide)

/-- `findElection` is unchanged by `castVote`. -/
lemma findElection_castVote (db : DB) (v e c i eid : Id) :
    findElection ((castVote db v e c i).2.1) eid = findElection db eid := by
  unfold findElection
  rw [castVote_elections]

/-- When the published election is missing, `publishResults` leaves the
database untouched. -/
lemma publishResults_notFound (db : DB) (pe : Id) (now : Int)
    (h : findElection db pe = none) : (publishResults db pe now).2.1 = db := by
  unfold publishResults
  rw [h]

/-- C9 counterexample.  Election 1 of `dbOpen` is Open (`isActive`, no
`status`, `endDate` 100 still in the future at time 5), yet `publishResults`
succeeds on it directly — no Closed-state guard exists — and emits
`results:published`; calling `publishResults` again succeeds once more,
emits a second `results:published` and re-stamps `publishedAt` from 5 to 6.
This refutes "publishResults applies only to a Closed election" and "the
results:published event is emitted at most once per election". -/
theorem publishResults_unguarded_counterexample :
    sampleOpen.isActive = true ∧ sampleOpen.status = none ∧
    sampleOpen.endDate = some 100 ∧
    (publishResults dbOpen 1 5).1.status = 200 ∧
    ((publishResults dbOpen 1 5).2.2.filter
        (fun m => m.event == "results:published")).length = 1 ∧
    (publishResults ((publishResults dbOpen 1 5).2.1) 1 6).1.status = 200 ∧
    ((publishResults ((publishResults dbOpen 1 5).2.1) 1 6).2.2.filter
        (fun m => m.event == "results:published")).length = 1 ∧
    ((findElection ((publishResults dbOpen 1 5).2.1) 1).map (fun e => e.publishedAt)
        = some (some 5)) ∧
    ((findElection ((publishResults ((publishResults dbOpen 1 5).2.1) 1 6).2.1) 1).map
        (fun e => e.publishedAt) = some (some 6)) := by
  decide

/-- C9 amended.  `publishResults` succeeds on any existing election
regardless of its lifecycle state and stamps it `'completed'`; and once an
election's status is `'completed'`, no sequence of operations (`castVote` or
`publishResults`) ever changes it to anything else — the machine is
forward-only into the completed state, but the Closed-only guard,
the lock against re-publishing and the once-only `results:published`
emission claimed by the spec do not exist. -/
theorem publish_completed_is_terminal :
    (∀ (db : DB) (eid : Id) (now : Int),
        (findElection db eid).isSome →
        (publishResults db eid now).1.status = 200 ∧
        ∃ el2, findElection ((publishResults db eid now).2.1) eid = some el2 ∧
          el2.status = some "completed") ∧
    (∀ (db : DB) (ops : List Op) (eid : Id) (el : Election),
        findElection db eid = some el → el.status = some "completed" →
        ∃ el2, findElection (runOps db ops) eid = some el2 ∧
          el2.status = some "completed") := by
  constructor
  · intro db eid now hp
    cases h : findElection db eid with
    | none => rw [h] at hp; simp at hp
    | some el =>
      have hid : (el.id == eid) = true := by
        have h2 : db.elections.find? (fun e => e.id == eid) = some el := h
        have h3 := List.find?_some h2
        exact h3
      constructor
      · unfold publishResults
        rw [h]
      · refine ⟨stampFor eid now el, ?_, ?_⟩
        · rw [findElection_publish db eid eid now hp, h]
          rfl
        · unfold stampFor publishUpdate
          rw [hid]
          rfl
  · intro db ops eid el hfind hstat
    induction ops generalizing db el with
    | nil => exact ⟨el, hfind, hstat⟩
    | cons op rest ih =>
      cases op with
      | cast v e c i =>
        have hnext : findElection (applyOp db (Op.cast v e c i)) eid = some el := by
          unfold applyOp
          rw [findElection_castVote]
          exact hfind
        exact ih (applyOp db (Op.cast v e c i)) el hnext hstat
      | publish pe now =>
        cases hq : findElection db pe with
        | none =>
          have hnext : applyOp db (Op.publish pe now) = db := by
            unfold applyOp
            exact publishResults_notFound db pe now hq
          have hstep : runOps db (Op.publish pe now :: rest)
              = runOps (applyOp db (Op.publish pe now)) rest := rfl
          rw [hstep, hnext]
          exact ih db el hfind hstat
        | some el0 =>
          have hp : (findElection db pe).isSome := by rw [hq]; rfl
          have hnext : findElection (applyOp db (Op.publish pe now)) eid
              = some (stampFor pe now el) := by
            unfold applyOp
            rw [findElection_publish db pe eid now hp, hfind]
            rfl
          have hstat2 : (stampFor pe now el).status = some "completed" := by
            unfold stampFor publishUpdate
            split
            · rfl
            · exact hstat
          exact ih (applyOp db (Op.publish pe now)) (stampFor pe now el) hnext hstat2

/-- Witness for C9 amended: publishing the open election 1 succeeds and marks
it completed, and election 1 of `dbCompleted` stays completed across a cast
and a re-publish. -/
theorem publish_completed_terminal_witness :
    ((publishResults dbOpen 1 5).1.status = 200 ∧
      ∃ el2, findElection ((publishResults dbOpen 1 5).2.1) 1 = some el2 ∧
        el2.status = some "completed") ∧
    (∃ el2, findElection (runOps dbCompleted [Op.cast 100 1 10 50, Op.publish 1 7]) 1
        = some el2 ∧ el2.status = some "completed") :=
  ⟨publish_completed_is_terminal.1 dbOpen 1 5 (by decide),
    publish_completed_is_terminal.2 dbCompleted [Op.cast 100 1 10 50, Op.publish 1 7]
      1 sampleDone (by decide) (by decide)⟩

/-- Open election 1 with three committed votes: candidate 10 has two,
candidate 11 has one. -/
def dbScenario : DB :=
  { elections := [sampleOpen], candidates := [candA, candB],
    votes := [{ id := 50, voter := 100, election := 1, candidate := 10 },
              { id := 51, voter := 101, election := 1, candidate := 11 },
              { id := 52, voter := 102, election := 1, candidate := 10 }] }

/-- The reduce over rows accumulates the sum of the vote totals. -/
lemma foldl_totalVotes (l : List LBRow) (n : Nat) :
    l.foldl (fun s r => s + r.totalVotes) n = n + (l.map (fun r => r.totalVotes)).sum := by
  induction l generalizing n with
  | nil => simp
  | cons x xs ih => simp [ih, Nat.add_assoc]

/-- The sorted rows are a permutation of one row per candidate of the
election. -/
lemma buildRows_perm (db : DB) (eid : Id) :
    (buildRows db eid).Perm
      ((db.candidates.filter (fun c => c.election == eid)).map (mkRow db eid)) :=
  List.perm_insertionSort rowGE _

/-- Membership in the sorted rows, traced back to the candidate list. -/
lemma mem_buildRows (db : DB) (eid : Id) (r : LBRow) :
    r ∈ buildRows db eid ↔
      ∃ c ∈ db.candidates.filter (fun c => c.election == eid), mkRow db eid c = r := by
  rw [(buildRows_perm db eid).mem_iff, List.mem_map]

/-- The rows come out of the insertion sort in descending order. -/
lemma buildRows_sorted (db : DB) (eid : Id) : List.Sorted rowGE (buildRows db eid) :=
  List.sorted_insertionSort rowGE _

/-- The code's reduced total is the sum of the rows' vote totals. -/
lemma lbTotal_eq_sum (db : DB) (eid : Id) :
    lbTotal db eid = ((buildRows db eid).map (fun r => r.totalVotes)).sum := by
  unfold lbTotal
  rw [foldl_totalVotes]
  simp

/-- Summing `totalVotes` over the published entries gives the code's total. -/
lemma entries_sum (db : DB) (eid : Id) :
    ((buildLeaderboard db eid).2.map (fun s => s.totalVotes)).sum = lbTotal db eid := by
  unfold buildLeaderboard
  rw [List.map_map]
  have h : ((fun s : LBEntry => s.totalVotes) ∘ addPercent (lbTotal db eid))
      = fun r : LBRow => r.totalVotes := rfl
  rw [h, ← lbTotal_eq_sum]

/-- C5.  `buildLeaderboard` matches the reference algorithm: its entries are
(a permutation of) exactly one entry per candidate of the election —
zero-vote candidates included — each entry's `totalVotes` is the count of
that election's votes for that candidate, each entry's `percent` is
`totalVotes(candidate) / totalVotes(election) * 100` with `0 / 0` defined as
`0`, and the entries are sorted descending by `totalVotes`. -/
theorem buildLeaderboard_correct (db : DB) (eid : Id)
    (hel : (findElection db eid).isSome) :
    ((buildLeaderboard db eid).2.map (fun r => (r.candidateId, r.name, r.party))).Perm
        ((db.candidates.filter (fun c => c.election == eid)).map
          (fun c => (c.id, c.name, c.party))) ∧
    (∀ r ∈ (buildLeaderboard db eid).2,
        r.totalVotes
          = (db.votes.filter
              (fun v => v.candidate == r.candidateId && v.election == eid)).length) ∧
    (∀ r ∈ (buildLeaderboard db eid).2,
        r.percent
          = if ((buildLeaderboard db eid).2.map (fun s => s.totalVotes)).sum = 0 then 0
            else (r.totalVotes : Rat)
              / ((((buildLeaderboard db eid).2.map (fun s => s.totalVotes)).sum : Nat) : Rat)
              * 100) ∧
    List.Sorted (fun a b => b.totalVotes ≤ a.totalVotes) (buildLeaderboard db eid).2 := by
  refine ⟨?_, ?_, ?_, ?_⟩
  · unfold buildLeaderboard
    rw [List.map_map]
    have h1 : ((fun r : LBEntry => (r.candidateId, r.name, r.party))
          ∘ addPercent (lbTotal db eid))
        = fun r : LBRow => (r.candidateId, r.name, r.party) := rfl
    rw [h1]
    have h2 := (buildRows_perm db eid).map (fun r : LBRow => (r.candidateId, r.name, r.party))
    rw [List.map_map] at h2
    exact h2
  · intro r hr
    unfold buildLeaderboard at hr
    rw [List.mem_map] at hr
    obtain ⟨r0, hr0, rfl⟩ := hr
    rw [mem_buildRows] at hr0
    obtain ⟨c, _, rfl⟩ := hr0
    rfl
  · intro r hr
    rw [entries_sum]
    unfold buildLeaderboard at hr
    rw [List.mem_map] at hr
    obtain ⟨r0, _, rfl⟩ := hr
    rfl
  · unfold buildLeaderboard
    rw [List.Sorted, List.pairwise_map]
    exact (buildRows_sorted db eid).imp (fun h => h)

/-- Witness for C5 on `dbScenario`: the entries are one per candidate of
election 1 and come out sorted descending. -/
theorem buildLeaderboard_correct_witness :
    ((buildLeaderboard dbScenario 1).2.map (fun r => (r.candidateId, r.name, r.party))).Perm
        ((dbScenario.candidates.filter (fun c => c.election == 1)).map
          (fun c => (c.id, c.name, c.party))) ∧
    List.Sorted (fun a b => b.totalVotes ≤ a.totalVotes) (buildLeaderboard dbScenario 1).2 :=
  ⟨(buildLeaderboard_correct dbScenario 1 (by decide)).1,
    (buildLeaderboard_correct dbScenario 1 (by decide)).2.2.2⟩

/-- `==` on ids is symmetric. -/
lemma id_beq_swap (a b : Id) : (a == b) = (b == a) := by
  by_cases h : a = b
  · subst h; rfl
  · simp [h, Ne.symm h]

/-- Filtering by a disjunction of pointwise-disjoint predicates counts each
element once. -/
lemma length_filter_or_disjoint (l : List Vote) (p q : Vote → Bool)
    (h : ∀ x ∈ l, ¬(p x = true ∧ q x = true)) :
    (l.filter (fun x => p x || q x)).length = (l.filter p).length + (l.filter q).length := by
  induction l with
  | nil => rfl
  | cons x xs ih =>
    have hx := h x (List.mem_cons_self x xs)
    have hxs : ∀ y ∈ xs, ¬(p y = true ∧ q y = true) :=
      fun y hy => h y (List.mem_cons_of_mem x hy)
    cases hp : p x with
    | true =>
      cases hq : q x with
      | true => exact absurd ⟨hp, hq⟩ hx
      | false => simp [List.filter_cons, hp, hq, ih hxs, Nat.add_right_comm]
    | false =>
      cases hq : q x with
      | true => simp [List.filter_cons, hp, hq, ih hxs, Nat.add_assoc]
      | false => simp [List.filter_cons, hp, hq, ih hxs]

/-- Summing each candidate's vote count over a duplicate-free candidate list
counts exactly the votes of this election cast for one of those
candidates. -/
lemma sum_counts_eq_filter_length (votes : List Vote) (eid : Id) :
    ∀ cs : List Candidate, ((cs.map (fun c => c.id)).Nodup) →
      (cs.map (fun c =>
          (votes.filter (fun v => v.candidate == c.id && v.election == eid)).length)).sum
        = (votes.filter (fun v =>
            v.election == eid && cs.any (fun c => c.id == v.candidate))).length := by
  intro cs
  induction cs with
  | nil =>
    intro _
    simp
  | cons c cs ih =>
    intro hnd
    rw [List.map_cons] at hnd
    obtain ⟨hc, hnd2⟩ := List.nodup_cons.mp hnd
    rw [List.map_cons, List.sum_cons, ih hnd2]
    have hsplit : votes.filter (fun v =>
          v.election == eid && (c :: cs).any (fun x => x.id == v.candidate))
        = votes.filter (fun v =>
            (v.election == eid && c.id == v.candidate)
              || (v.election == eid && cs.any (fun x => x.id == v.candidate))) := by
      apply List.filter_congr
      intro v _
      rw [List.any_cons]
      cases (v.election == eid) <;> cases (c.id == v.candidate) <;>
        cases (cs.any (fun x => x.id == v.candidate)) <;> rfl
    rw [hsplit, length_filter_or_disjoint]
    · have hswap : votes.filter (fun v => v.candidate == c.id && v.election == eid)
          = votes.filter (fun v => v.election == eid && c.id == v.candidate) := by
        apply List.filter_congr
        intro v _
        rw [id_beq_swap c.id v.candidate]
        cases (v.election == eid) <;> cases (v.candidate == c.id) <;> rfl
      rw [hswap]
    · intro v _ hcon
      obtain ⟨h1, h2⟩ := hcon
      rw [Bool.and_eq_true] at h1 h2
      have hval : c.id = v.candidate := by
        have := h1.2
        simpa using this
      have hmem : ∃ x ∈ cs, (x.id == v.candidate) = true := List.any_eq_true.mp h2.2
      obtain ⟨x, hxmem, hxid⟩ := hmem
      apply hc
      rw [List.mem_map]
      refine ⟨x, hxmem, ?_⟩
      have : x.id = v.candidate := by simpa using hxid
      rw [this, ← hval]

/-- C6 counterexample.  From `dbOpen` a single (unvalidated) `castVote` for
the nonexistent candidate 99 reaches a state where the leaderboard's reported
`totalVotes` is 0 while the committed Vote rows of election 1 number 1 —
refuting "both equal the count of committed Vote rows whose electionId is
that election" for reachable states. -/
theorem leaderboard_total_misses_invalid_candidate_votes :
    (buildLeaderboard (runOps dbOpen [Op.cast 100 1 99 50]) 1).1 = 0 ∧
    ((runOps dbOpen [Op.cast 100 1 99 50]).votes.filter
        (fun v => v.election == 1)).length = 1 := by
  decide

/-- C6 amended.  The reported `totalVotes` always equals the sum of the
entries' `totalVotes`; with duplicate-free candidate ids it equals the count
of the election's Vote rows whose candidate belongs to the election's
candidate list; and it equals the full count of the election's Vote rows
whenever every vote of the election references a valid candidate (which the
unvalidated `castVote` does not guarantee). -/
theorem leaderboard_total_conservation (db : DB) (eid : Id)
    (hnd : ((db.candidates.filter (fun c => c.election == eid)).map
        (fun c => c.id)).Nodup) :
    (buildLeaderboard db eid).1
        = ((buildLeaderboard db eid).2.map (fun s => s.totalVotes)).sum ∧
    (buildLeaderboard db eid).1
        = (db.votes.filter (fun v => v.election == eid
            && (db.candidates.filter (fun c => c.election == eid)).any
                 (fun c => c.id == v.candidate))).length ∧
    ((∀ v ∈ db.votes, v.election = eid →
        ∃ c, c ∈ db.candidates.filter (fun c => c.election == eid) ∧ c.id = v.candidate) →
      (buildLeaderboard db eid).1
        = (db.votes.filter (fun v => v.election == eid)).length) := by
  have hmain : (buildLeaderboard db eid).1
      = (db.votes.filter (fun v => v.election == eid
          && (db.candidates.filter (fun c => c.election == eid)).any
               (fun c => c.id == v.candidate))).length := by
    have h1 : (buildLeaderboard db eid).1 = lbTotal db eid := rfl
    rw [h1, lbTotal_eq_sum]
    have h2 : ((buildRows db eid).map (fun r => r.totalVotes)).sum
        = (((db.candidates.filter (fun c => c.election == eid)).map
            (mkRow db eid)).map (fun r => r.totalVotes)).sum :=
      ((buildRows_perm db eid).map (fun r => r.totalVotes)).sum_eq
    rw [h2, List.map_map]
    exact sum_counts_eq_filter_length db.votes eid
      (db.candidates.filter (fun c => c.election == eid)) hnd
  refine ⟨(entries_sum db eid).symm, hmain, ?_⟩
  intro hvalid
  rw [hmain]
  congr 1
  apply List.filter_congr
  intro v hv
  cases he : (v.election == eid) with
  | false => rfl
  | true =>
    have hveq : v.election = eid := by simpa using he
    obtain ⟨c, hcmem, hcid⟩ := hvalid v hv hveq
    have hany : ((db.candidates.filter (fun c => c.election == eid)).any
        (fun c => c.id == v.candidate)) = true := by
      rw [List.any_eq_true]
      exact ⟨c, hcmem, by simp [hcid]⟩
    rw [hany]
    rfl

/-- Witness for C6 on `dbScenario` (all three votes reference valid
candidates): the reported total, the sum of the entries and the row count
all equal 3. -/
theorem leaderboard_total_conservation_witness :
    (buildLeaderboard dbScenario 1).1
        = ((buildLeaderboard dbScenario 1).2.map (fun s => s.totalVotes)).sum ∧
    (buildLeaderboard dbScenario 1).1
        = (dbScenario.votes.filter (fun v => v.election == 1)).length :=
  ⟨(leaderboard_total_conservation dbScenario 1 (by decide)).1,
    (leaderboard_total_conservation dbScenario 1 (by decide)).2.2 (by decide)⟩

/-- C7 counterexample.  Election 1 of `dbOpen` was never published (`status`
and `publishedAt` unset), yet `getResults` at time 200 succeeds because its
`endDate` 100 lies in the past — refuting "succeeds only in the Published
state".  And after publishing, the snapshot is not frozen: a vote cast after
publication (which `castVote` accepts) changes the `totalVotes` that
`getResults` reports from 0 to 1. -/
theorem getResults_unpublished_and_unfrozen_counterexample :
    sampleOpen.status = none ∧ sampleOpen.publishedAt = none ∧
    (getResults dbOpen 1 200).1.status = 200 ∧
    ((getResults ((publishResults dbOpen 1 5).2.1) 1 10).2.map
        (fun d => d.totalVotes) = some 0) ∧
    (castVote ((publishResults dbOpen 1 5).2.1) 100 1 10 50).1.status = 201 ∧
    ((getResults ((castVote ((publishResults dbOpen 1 5).2.1) 100 1 10 50).2.1) 1 10).2.map
        (fun d => d.totalVotes) = some 1) := by
  decide

/-- C7 amended.  `getResults` succeeds exactly when `isElectionCompleted`
holds of the election — `status == 'completed'` when the status string is
set, otherwise an `endDate` strictly in the past, otherwise
`isActive == false` — and on success it returns the leaderboard recomputed
from the current ledger at call time (there is no frozen snapshot; only
`publishedAt` is a stamp from publication). -/
theorem getResults_completed_characterization (db : DB) (eid : Id) (now : Int)
    (el : Election) (hfind : findElection db eid = some el) :
    (((getResults db eid now).1.status = 200) ↔ isElectionCompleted now el = true) ∧
    (isElectionCompleted now el = true →
      getResults db eid now
        = ({ status := 200, message := "" },
            some { electionId := eid, status := el.status.getD "completed",
                   publishedAt := el.publishedAt,
                   totalVotes := (buildLeaderboard db eid).1,
                   leaderboard := (buildLeaderboard db eid).2 })) ∧
    (isElectionCompleted now el = false →
      getResults db eid now
        = ({ status := 400, message := "Election not completed yet" }, none)) := by
  unfold getResults
  rw [hfind]
  cases hc : isElectionCompleted now el with
  | true => simp [hc]
  | false => simp [hc]

/-- Witness for C7 amended at `dbCompleted` (status `'completed'`): the call
succeeds and returns the recomputed leaderboard with the publication
stamp. -/
theorem getResults_completed_witness :
    (((getResults dbCompleted 1 10).1.status = 200)
        ↔ isElectionCompleted 10 sampleDone = true) ∧
    getResults dbCompleted 1 10
      = ({ status := 200, message := "" },
          some { electionId := 1, status := sampleDone.status.getD "completed",
                 publishedAt := sampleDone.publishedAt,
                 totalVotes := (buildLeaderboard dbCompleted 1).1,
                 leaderboard := (buildLeaderboard dbCompleted 1).2 }) :=
  ⟨(getResults_completed_characterization dbCompleted 1 10 sampleDone (by decide)).1,
    (getResults_completed_characterization dbCompleted 1 10 sampleDone (by decide)).2.1
      (by decide)⟩

/-- C8 counterexample.  A successful `castVote` on `dbOpen` emits a single
`leaderboardUpdate` event — not `leaderboard:update` — whose payload is the
vote-grouped inline aggregate containing only candidate A, while
`buildLeaderboard` on the same state also lists the zero-vote candidate B:
the broadcast snapshot is not the `buildLeaderboard` snapshot. -/
theorem castVote_emit_not_buildLeaderboard :
    (castVote dbOpen 100 1 10 50).2.2
      = [{ room := 1, event := "leaderboardUpdate",
           payload := Payload.agg [{ candidate := "A", votes := 1 }] }] ∧
    "leaderboardUpdate" ≠ "leaderboard:update" ∧
    ((buildLeaderboard ((castVote dbOpen 100 1 10 50).2.1) 1).2.map
        (fun r => (r.name, r.totalVotes)) = [("A", 1), ("B", 0)]) := by
  decide

/-- C8 amended.  Every successful `castVote` synchronously recomputes the
inline vote-grouped aggregate on the post-insert state and emits it as a
single `leaderboardUpdate` event to the room of that `electionId`, and to no
other room. -/
theorem castVote_emit_characterization (db : DB) (v e c i : Id)
    (hfind : (findElection db e).isSome) (hfresh : hasVote db v e = false) :
    (castVote db v e c i).2.2
      = [{ room := e, event := "leaderboardUpdate",
           payload := Payload.agg (castVoteAgg ((castVote db v e c i).2.1) e) }] ∧
    ((castVote db v e c i).2.2.all (fun m => m.room == e)) = true := by
  cases hf : findElection db e with
  | none => rw [hf] at hfind; simp at hfind
  | some el =>
    constructor
    · simp [castVote, hf, hfresh, insertVote]
    · simp [castVote, hf, hfresh, insertVote]

/-- Witness for C8 amended: casting voter 100's vote in `dbOpen` emits
exactly one `leaderboardUpdate` to room 1. -/
theorem castVote_emit_characterization_witness :
    (castVote dbOpen 100 1 10 50).2.2
      = [{ room := 1, event := "leaderboardUpdate",
           payload := Payload.agg (castVoteAgg ((castVote dbOpen 100 1 10 50).2.1) 1) }] :=
  (castVote_emit_characterization dbOpen 100 1 10 50 (by decide) (by decide)).1

/-! ### Concurrent `castVote` calls

`castVote` performs two database accesses relevant to the uniqueness
invariant: the `findOne` existence check and the insert.  Each is an atomic
storage operation, but between them another request may run.  An in-flight
request is a small state machine; an interleaving of two requests is a
schedule saying which request performs its next atomic step. -/

/-- The arguments of one in-flight `castVote` request. -/
structure CallParams where
  voter : Id
  eid : Id
  cid : Id
  vid : Id
deriving DecidableEq, Repr

/-- The control state of one in-flight `castVote` request: not yet started,
past the `findOne` check (remembering what it saw), or finished with an HTTP
status. -/
inductive CState where
  | start
  | checked (dup : Bool)
  | done (status : Nat)
deriving DecidableEq, Repr

/-- One atomic step of an in-flight `castVote`: the first step resolves the
election and performs the `findOne` duplicate check; the second step either
answers 400 (check saw a prior vote) or attempts the storage insert, mapping
a duplicate-key error to the catch-all 500 response as the controller's
`catch` does. -/
def stepCall (p : CallParams) (db : DB) : CState → CState × DB
  | CState.start =>
      match findElection db p.eid with
      | none => (CState.done 404, db)
      | some _ => (CState.checked (hasVote db p.voter p.eid), db)
  | CState.checked dup =>
      if dup then (CState.done 400, db)
      else
        match insertVote db { id := p.vid, voter := p.voter, election := p.eid,
                              candidate := p.cid } with
        | Except.ok db2 => (CState.done 201, db2)
        | Except.error _ => (CState.done 500, db)
  | CState.done s => (CState.done s, db)

/-- Two in-flight requests over one shared database. -/
structure ConcState where
  db : DB
  a : CState
  b : CState
deriving DecidableEq, Repr

/-- Let request A (`true`) or B (`false`) perform its next atomic step. -/
def stepConc (pa pb : CallParams) (s : ConcState) (who : Bool) : ConcState :=
  if who then
    let r := stepCall pa s.db s.a
    { s with a := r.1, db := r.2 }
  else
    let r := stepCall pb s.db s.b
    { s with b := r.1, db := r.2 }

/-- Run two concurrent `castVote` requests under a schedule. -/
def run2 (pa pb : CallParams) (db : DB) (sched : List Bool) : ConcState :=
  sched.foldl (stepConc pa pb) { db := db, a := CState.start, b := CState.start }

/-- All interleavings of the two two-step requests. -/
def interleavings2 : List (List Bool) :=
  [[true, true, false, false], [true, false, true, false], [true, false, false, true],
   [false, true, true, false], [false, true, false, true], [false, false, true, true]]

/-- Number of committed votes for one `(voter, election)` pair. -/
def countPair (db : DB) (v e : Id) : Nat :=
  (db.votes.filter (fun w => w.voter == v && w.election == e)).length

/-- Request A for voter 100 in election 1 (candidate 10). -/
def pA : CallParams := { voter := 100, eid := 1, cid := 10, vid := 50 }

/-- Request B for the same voter and election (candidate 11). -/
def pB : CallParams := { voter := 100, eid := 1, cid := 11, vid := 51 }

/-- A pair with no committed vote has count 0. -/
lemma countPair_eq_zero (db : DB) (v e : Id) (h : hasVote db v e = false) :
    countPair db v e = 0 := by
  unfold countPair
  rw [List.length_eq_zero, List.filter_eq_nil_iff]
  intro a ha
  unfold hasVote at h
  exact (List.any_eq_false.mp h) a ha

/-- C2 counterexample.  Under the interleaving check-A, check-B, insert-A,
insert-B of two same-voter same-election casts on `dbOpen` (no prior vote),
request A succeeds with 201 and request B fails with the generic 500 storage
response (the controller's `catch` of the duplicate-key error), not the 400
`DuplicateVote` ("You already voted") response — refuting "all others fail
with DuplicateVote".  The interleaving exists precisely because `castVote` is
a separate check-then-insert sequence. -/
theorem concurrent_castVote_loser_not_duplicateVote :
    (run2 pA pB dbOpen [true, false, true, false]).a = CState.done 201 ∧
    (run2 pA pB dbOpen [true, false, true, false]).b = CState.done 500 ∧
    (500 : Nat) ≠ 400 ∧
    countPair (run2 pA pB dbOpen [true, false, true, false]).db 100 1 = 1 := by
  decide

/-- Scheduling request A performs A's next atomic step. -/
lemma stepConc_true (pa pb : CallParams) (s : ConcState) :
    stepConc pa pb s true
      = { s with a := (stepCall pa s.db s.a).1, db := (stepCall pa s.db s.a).2 } := rfl

/-- Scheduling request B performs B's next atomic step. -/
lemma stepConc_false (pa pb : CallParams) (s : ConcState) :
    stepConc pa pb s false
      = { s with b := (stepCall pb s.db s.b).1, db := (stepCall pb s.db s.b).2 } := rfl

/-- The first step of a request whose election resolves records what the
duplicate check saw. -/
lemma stepCall_start (p : CallParams) (db : DB) (h : (findElection db p.eid).isSome) :
    stepCall p db CState.start = (CState.checked (hasVote db p.voter p.eid), db) := by
  obtain ⟨el, hel⟩ := Option.isSome_iff_exists.mp h
  simp [stepCall, hel]

/-- A request whose check saw a prior vote answers 400. -/
lemma stepCall_dup (p : CallParams) (db : DB) :
    stepCall p db (CState.checked true) = (CState.done 400, db) := rfl

/-- The database after a request's vote is committed. -/
def insDB (db : DB) (p : CallParams) : DB :=
  { db with votes := db.votes
      ++ [{ id := p.vid, voter := p.voter, election := p.eid, candidate := p.cid }] }

/-- A request that wins the insert race commits its vote and answers 201. -/
lemma stepCall_insert_ok (p : CallParams) (db : DB)
    (h : hasVote db p.voter p.eid = false) :
    stepCall p db (CState.checked false) = (CState.done 201, insDB db p) := by
  simp [stepCall, insertVote, insDB, h]

/-- A request that loses the insert race hits the duplicate-key error, which
the controller's catch maps to 500. -/
lemma stepCall_insert_err (p : CallParams) (db : DB)
    (h : hasVote db p.voter p.eid = true) :
    stepCall p db (CState.checked false) = (CState.done 500, db) := by
  simp [stepCall, insertVote, h]

/-- C2 amended.  With the spec-modelled storage-level uniqueness constraint,
for every interleaving of two `castVote` requests with the same
`(voterId, electionId)` on a state with no prior vote for that pair (and a
resolving election), exactly one request succeeds (201) and the other fails —
with 400 `DuplicateVote` when its check ran after the winner's insert, or
with the generic 500 storage-error response when it lost the insert race —
and exactly one vote for the pair is committed. -/
theorem concurrent_castVote_exactly_one_success (db : DB) (pa pb : CallParams)
    (hv : pb.voter = pa.voter) (he : pb.eid = pa.eid)
    (hfind : (findElection db pa.eid).isSome)
    (hfresh : hasVote db pa.voter pa.eid = false)
    (sched : List Bool) (hs : sched ∈ interleavings2) :
    (((run2 pa pb db sched).a = CState.done 201 ∧
        ((run2 pa pb db sched).b = CState.done 400 ∨
          (run2 pa pb db sched).b = CState.done 500)) ∨
      ((run2 pa pb db sched).b = CState.done 201 ∧
        ((run2 pa pb db sched).a = CState.done 400 ∨
          (run2 pa pb db sched).a = CState.done 500))) ∧
    countPair (run2 pa pb db sched).db pa.voter pa.eid = 1 := by
  have hzero : (db.votes.filter
      (fun w => w.voter == pa.voter && w.election == pa.eid)).length = 0 :=
    countPair_eq_zero db pa.voter pa.eid hfresh
  have hfreshB : hasVote db pb.voter pb.eid = false := by rw [hv, he]; exact hfresh
  have hfindB : (findElection db pb.eid).isSome := by rw [he]; exact hfind
  have hdupA : hasVote (insDB db pa) pa.voter pa.eid = true := by
    simp [hasVote, insDB, List.any_append]
  have hdupBA : hasVote (insDB db pa) pb.voter pb.eid = true := by
    rw [hv, he]; exact hdupA
  have hdupAB : hasVote (insDB db pb) pa.voter pa.eid = true := by
    simp [hasVote, insDB, List.any_append, hv, he]
  have hfindRAb : (findElection (insDB db pa) pb.eid).isSome := hfindB
  have hfindRBa : (findElection (insDB db pb) pa.eid).isSome := hfind
  have hcountA : countPair (insDB db pa) pa.voter pa.eid = 1 := by
    simp [countPair, insDB, List.filter_append, hzero]
  have hcountB : countPair (insDB db pb) pa.voter pa.eid = 1 := by
    simp [countPair, insDB, List.filter_append, hzero, hv, he]
  have T1 : stepConc pa pb ⟨db, CState.start, CState.start⟩ true
      = ⟨db, CState.checked false, CState.start⟩ := by
    simp [stepConc_true, stepCall_start pa db hfind, hfresh]
  have T2 : stepConc pa pb ⟨db, CState.start, CState.start⟩ false
      = ⟨db, CState.start, CState.checked false⟩ := by
    simp [stepConc_false, stepCall_start pb db hfindB, hfreshB]
  have T3 : stepConc pa pb ⟨db, CState.checked false, CState.start⟩ true
      = ⟨insDB db pa, CState.done 201, CState.start⟩ := by
    simp [stepConc_true, stepCall_insert_ok pa db hfresh]
  have T4 : stepConc pa pb ⟨db, CState.checked false, CState.start⟩ false
      = ⟨db, CState.checked false, CState.checked false⟩ := by
    simp [stepConc_false, stepCall_start pb db hfindB, hfreshB]
  have T5 : stepConc pa pb ⟨db, CState.start, CState.checked false⟩ true
      = ⟨db, CState.checked false, CState.checked false⟩ := by
    simp [stepConc_true, stepCall_start pa db hfind, hfresh]
  have T6 : stepConc pa pb ⟨db, CState.start, CState.checked false⟩ false
      = ⟨insDB db pb, CState.start, CState.done 201⟩ := by
    simp [stepConc_false, stepCall_insert_ok pb db hfreshB]
  have T7 : stepConc pa pb ⟨insDB db pa, CState.done 201, CState.start⟩ false
      = ⟨insDB db pa, CState.done 201, CState.checked true⟩ := by
    simp [stepConc_false, stepCall_start pb (insDB db pa) hfindRAb, hdupBA]
  have T8 : stepConc pa pb ⟨insDB db pa, CState.done 201, CState.checked true⟩ false
      = ⟨insDB db pa, CState.done 201, CState.done 400⟩ := by
    simp [stepConc_false, stepCall_dup]
  have T9 : stepConc pa pb ⟨db, CState.checked false, CState.checked false⟩ true
      = ⟨insDB db pa, CState.done 201, CState.checked false⟩ := by
    simp [stepConc_true, stepCall_insert_ok pa db hfresh]
  have T10 : stepConc pa pb ⟨insDB db pa, CState.done 201, CState.checked false⟩ false
      = ⟨insDB db pa, CState.done 201, CState.done 500⟩ := by
    simp [stepConc_false, stepCall_insert_err pb (insDB db pa) hdupBA]
  have T11 : stepConc pa pb ⟨db, CState.checked false, CState.checked false⟩ false
      = ⟨insDB db pb, CState.checked false, CState.done 201⟩ := by
    simp [stepConc_false, stepCall_insert_ok pb db hfreshB]
  have T12 : stepConc pa pb ⟨insDB db pb, CState.checked false, CState.done 201⟩ true
      = ⟨insDB db pb, CState.done 500, CState.done 201⟩ := by
    simp [stepConc_true, stepCall_insert_err pa (insDB db pb) hdupAB]
  have T13 : stepConc pa pb ⟨insDB db pb, CState.start, CState.done 201⟩ true
      = ⟨insDB db pb, CState.checked true, CState.done 201⟩ := by
    simp [stepConc_true, stepCall_start pa (insDB db pb) hfindRBa, hdupAB]
  have T14 : stepConc pa pb ⟨insDB db pb, CState.checked true, CState.done 201⟩ true
      = ⟨insDB db pb, CState.done 400, CState.done 201⟩ := by
    simp [stepConc_true, stepCall_dup]
  have hs6 : sched = [true, true, false, false] ∨ sched = [true, false, true, false] ∨
      sched = [true, false, false, true] ∨ sched = [false, true, true, false] ∨
      sched = [false, true, false, true] ∨ sched = [false, false, true, true] := by
    simpa [interleavings2] using hs
  rcases hs6 with rfl | rfl | rfl | rfl | rfl | rfl
  · have hrun : run2 pa pb db [true, true, false, false]
        = ⟨insDB db pa, CState.done 201, CState.done 400⟩ := by
      show stepConc pa pb (stepConc pa pb (stepConc pa pb
        (stepConc pa pb ⟨db, CState.start, CState.start⟩ true) true) false) false = _
      rw [T1, T3, T7, T8]
    rw [hrun]
    exact ⟨Or.inl ⟨rfl, Or.inl rfl⟩, hcountA⟩
  · have hrun : run2 pa pb db [true, false, true, false]
        = ⟨insDB db pa, CState.done 201, CState.done 500⟩ := by
      show stepConc pa pb (stepConc pa pb (stepConc pa pb
        (stepConc pa pb ⟨db, CState.start, CState.start⟩ true) false) true) false = _
      rw [T1, T4, T9, T10]
    rw [hrun]
    exact ⟨Or.inl ⟨rfl, Or.inr rfl⟩, hcountA⟩
  · have hrun : run2 pa pb db [true, false, false, true]
        = ⟨insDB db pb, CState.done 500, CState.done 201⟩ := by
      show stepConc pa pb (stepConc pa pb (stepConc pa pb
        (stepConc pa pb ⟨db, CState.start, CState.start⟩ true) false) false) true = _
      rw [T1, T4, T11, T12]
    rw [hrun]
    exact ⟨Or.inr ⟨rfl, Or.inr rfl⟩, hcountB⟩
  · have hrun : run2 pa pb db [false, true, true, false]
        = ⟨insDB db pa, CState.done 201, CState.done 500⟩ := by
      show stepConc pa pb (stepConc pa pb (stepConc pa pb
        (stepConc pa pb ⟨db, CState.start, CState.start⟩ false) true) true) false = _
      rw [T2, T5, T9, T10]
    rw [hrun]
    exact ⟨Or.inl ⟨rfl, Or.inr rfl⟩, hcountA⟩
  · have hrun : run2 pa pb db [false, true, false, true]
        = ⟨insDB db pb, CState.done 500, CState.done 201⟩ := by
      show stepConc pa pb (stepConc pa pb (stepConc pa pb
        (stepConc pa pb ⟨db, CState.start, CState.start⟩ false) true) false) true = _
      rw [T2, T5, T11, T12]
    rw [hrun]
    exact ⟨Or.inr ⟨rfl, Or.inr rfl⟩, hcountB⟩
  · have hrun : run2 pa pb db [false, false, true, true]
        = ⟨insDB db pb, CState.done 400, CState.done 201⟩ := by
      show stepConc pa pb (stepConc pa pb (stepConc pa pb
        (stepConc pa pb ⟨db, CState.start, CState.start⟩ false) false) true) true = _
      rw [T2, T6, T13, T14]
    rw [hrun]
    exact ⟨Or.inr ⟨rfl, Or.inl rfl⟩, hcountB⟩

/-- Witness for C2 amended: requests `pA` and `pB` on `dbOpen` under the
sequential-looking interleaving — A wins, B's check sees the committed vote
and answers 400, and one vote is committed. -/
theorem concurrent_castVote_witness :
    (((run2 pA pB dbOpen [true, true, false, false]).a = CState.done 201 ∧
        ((run2 pA pB dbOpen [true, true, false, false]).b = CState.done 400 ∨
          (run2 pA pB dbOpen [true, true, false, false]).b = CState.done 500)) ∨
      ((run2 pA pB dbOpen [true, true, false, false]).b = CState.done 201 ∧
        ((run2 pA pB dbOpen [true, true, false, false]).a = CState.done 400 ∨
          (run2 pA pB dbOpen [true, true, false, false]).a = CState.done 500))) ∧
    countPair (run2 pA pB dbOpen [true, true, false, false]).db pA.voter pA.eid = 1 :=
  concurrent_castVote_exactly_one_success dbOpen pA pB rfl rfl
    (by decide) (by decide) [true, true, false, false] (by decide)

end Voting
